import Mathlib

/-!
Shallow embedding of the graph aggregation engine of
`src/data/sircalcalot.py` (Trade_Data_Analyzer).

The RDF store is modelled as a list of triples kept in insertion order
(rdflib's in-memory store iterates dictionaries in insertion order, and
`Graph.add` is a set-insert).  RDF terms are modelled by the inductive
type `Node`: URIs, string literals, integer literals and numeric
(decimal/float) literals, the latter as rationals.
-/

namespace TDA

/-- An RDF term: a URI reference, a string literal, an integer literal
(year values), or a numeric literal (trade values, modelled as ℚ). -/
inductive Node where
  | uri (s : String)
  | litStr (s : String)
  | litInt (n : Int)
  | litNum (q : ℚ)
deriving DecidableEq

/-- One RDF statement (subject, predicate, object). -/
structure Triple where
  s : Node
  p : Node
  o : Node
deriving DecidableEq

/-- The in-memory store: triples in insertion order, duplicates never stored. -/
abbrev Graph := List Triple

/-- `rdflib.Graph.add`: set-insert, appending at the end when new. -/
def addTriple (g : Graph) (t : Triple) : Graph :=
  if t ∈ g then g else g ++ [t]

/-- Add a batch of statements one by one (the writer's `for statement in
statements: g.add(statement)` loop). -/
def addStatements (g : Graph) (ts : List Triple) : Graph :=
  ts.foldl addTriple g

/-- `g.objects(s, p)`: objects of all stored triples with the given subject
and predicate, in store order. -/
def objectsOf (g : Graph) (s p : Node) : List Node :=
  g.filterMap (fun t => if t.s = s ∧ t.p = p then some t.o else none)

/-! ### The fixed vocabulary (namespace `http://example.org/country-data#`) -/

def baseNS : String := "http://example.org/country-data#"

def rdfType : Node := .uri "http://www.w3.org/1999/02/22-rdf-syntax-ns#type"

def cCountry : Node := .uri (baseNS ++ "Country")

def pIsoCode : Node := .uri (baseNS ++ "isoCode")

def pHasTradeMeasurement : Node := .uri (baseNS ++ "hasTradeMeasurement")

def cGoodsTrade : Node := .uri (baseNS ++ "GoodsTrade")

def cServicesTrade : Node := .uri (baseNS ++ "ServicesTrade")

def pYear : Node := .uri (baseNS ++ "year")

def pFlowType : Node := .uri (baseNS ++ "flowType")

def pTradeValue : Node := .uri (baseNS ++ "tradeValue")

def cTradeAggregate : Node := .uri (baseNS ++ "TradeAggregate")

def pHasTradeAggregate : Node := .uri (baseNS ++ "hasTradeAggregate")

def pTotalExportValue : Node := .uri (baseNS ++ "totalExportValue")

def pGoodsExportValue : Node := .uri (baseNS ++ "goodsExportValue")

def pServicesExportValue : Node := .uri (baseNS ++ "servicesExportValue")

def pTotalImportValue : Node := .uri (baseNS ++ "totalImportValue")

def pGoodsImportValue : Node := .uri (baseNS ++ "goodsImportValue")

def pServicesImportValue : Node := .uri (baseNS ++ "servicesImportValue")

def pTotalTradeBalance : Node := .uri (baseNS ++ "totalTradeBalance")

def pGoodsTradeBalance : Node := .uri (baseNS ++ "goodsTradeBalance")

def pServicesTradeBalance : Node := .uri (baseNS ++ "servicesTradeBalance")

/-! ### Python primitive conversions used by the source -/

/-- A decimal-number string accepted by Python's `float()` (sign, integer
part, optional fractional part); exotic forms (exponents, infinities) are
out of the model. -/
def parseDecimalString (s : String) : Option ℚ :=
  let neg : Bool := s.startsWith "-"
  let body : String := if neg then s.drop 1 else s
  let val? : Option ℚ :=
    match body.splitOn "." with
    | [ip] => (ip.toNat?).map (fun n => (n : ℚ))
    | [ip, fp] =>
      if ip.isEmpty ∧ fp.isEmpty then none
      else
        match (if ip.isEmpty then some 0 else ip.toNat?),
              (if fp.isEmpty then some 0 else fp.toNat?) with
        | some i, some f => some ((i : ℚ) + (f : ℚ) / ((10 : ℚ) ^ fp.length))
        | _, _ => none
    | _ => none
  val?.map (fun v => if neg then -v else v)

/-- `float(node)` (line 84): numeric and integer literals convert; string
content is parsed as a decimal number; failure raises, modelled as `none`. -/
def parseValue : Node → Option ℚ
  | .litNum q => some q
  | .litInt n => some (n : ℚ)
  | .litStr s => parseDecimalString s
  | .uri s => parseDecimalString s

/-- `str(node)`: the lexical form of a term. -/
def nodeToStr : Node → String
  | .uri s => s
  | .litStr s => s
  | .litInt n => toString n
  | .litNum q => toString q

/-- `int(node)` (lines 203/210): integers directly, digit strings via
parsing, numeric literals by truncation toward zero; failure is `none`. -/
def yearToInt : Node → Option Int
  | .litInt n => some n
  | .litStr s => s.toInt?
  | .uri s => s.toInt?
  | .litNum q => some (q.num.tdiv q.den)

/-! ### Entity and period discovery (`get_countries`, `get_relevant_years`) -/

/-- Code order of the pairs produced by `get_countries`' nested loops
(lines 39-42): one `(str(s), str(iso))` pair per `isoCode` triple of each
subject carrying an `rdf:type Country` triple. -/
def countryPairs (g : Graph) : List (String × String) :=
  (g.filter (fun t => t.p = rdfType ∧ t.o = cCountry)).flatMap
    (fun t => (objectsOf g t.s pIsoCode).map
      (fun iso => (nodeToStr t.s, nodeToStr iso)))

/-- The sort key of `sorted(countries, key=lambda x: x[1])`. -/
def byCode (a b : String × String) : Prop := a.2 ≤ b.2

instance : DecidableRel byCode := fun a b => by unfold byCode; infer_instance

/-- `get_countries` (lines 38-43): the pairs stably sorted ascending by ISO
code (`sorted(countries, key=lambda x: x[1])`; Python's `sorted` is a
stable sort, modelled by insertion sort). -/
def get_countries (g : Graph) : List (String × String) :=
  (countryPairs g).insertionSort byCode

/-- Year literals attached to subjects of a given measurement type
(one of the two loops of `get_relevant_years`). -/
def yearsOfType (g : Graph) (ty : Node) : List Int :=
  ((g.filter (fun t => t.p = rdfType ∧ t.o = ty)).flatMap
    (fun t => objectsOf g t.s pYear)).filterMap yearToInt

/-- `get_relevant_years` (lines 196-216): integer-parseable years of all
GoodsTrade and ServicesTrade measurements, deduplicated and sorted. -/
def get_relevant_years (g : Graph) : List Int :=
  ((yearsOfType g cGoodsTrade ++ yearsOfType g cServicesTrade).dedup).insertionSort
    (fun a b => a ≤ b)

/-! ### The per-entity-period aggregator (`calculate_year_totals`) -/

/-- The four accumulation buckets (the `totals` dictionary, lines 48-53). -/
structure Totals where
  goods_export : ℚ
  goods_import : ℚ
  services_export : ℚ
  services_import : ℚ
deriving DecidableEq

def Totals.init : Totals := ⟨0, 0, 0, 0⟩

/-- `totals[key] += value` for the four possible keys. -/
def addToKey (t : Totals) (k : String) (v : ℚ) : Totals :=
  if k = "goods_export" then { t with goods_export := t.goods_export + v }
  else if k = "goods_import" then { t with goods_import := t.goods_import + v }
  else if k = "services_export" then { t with services_export := t.services_export + v }
  else if k = "services_import" then { t with services_import := t.services_import + v }
  else t

/-- `any(value > 0 for value in totals.values())` (line 99). -/
def Totals.anyPositive (t : Totals) : Prop :=
  0 < t.goods_export ∨ 0 < t.goods_import ∨ 0 < t.services_export ∨ 0 < t.services_import

instance (t : Totals) : Decidable t.anyPositive := by
  unfold Totals.anyPositive; infer_instance

/-- The body of the measurement loop (lines 60-96): the bucket key and
value a single measurement node contributes for the target year, or `none`
when the record is skipped by one of the `continue` guards. -/
def recordContribution (g : Graph) (year : Int) (m : Node) : Option (String × ℚ) :=
  match (objectsOf g m rdfType).head? with
  | none => none
  | some measurement_type =>
    if measurement_type ≠ cGoodsTrade ∧ measurement_type ≠ cServicesTrade then none
    else
      match (objectsOf g m pYear).head? with
      | none => none
      | some y0 =>
        if y0 ≠ Node.litInt year then none
        else
          match (objectsOf g m pFlowType).head?, (objectsOf g m pTradeValue).head? with
          | some ft, some v0 =>
            match parseValue v0 with
            | none => none
            | some value =>
              if value ≤ 0 then none
              else
                let trade_type : String :=
                  if measurement_type = cGoodsTrade then "goods" else "services"
                let direction : String :=
                  if nodeToStr ft = "Export" then "export" else "import"
                some (trade_type ++ "_" ++ direction, value)
          | _, _ => none

/-- The accumulated bucket map before the final any-positive test: the fold
of the measurement loop over `g.objects(country, base.hasTradeMeasurement)`. -/
def rawTotals (g : Graph) (country_uri : String) (year : Int) : Totals :=
  (objectsOf g (.uri country_uri) pHasTradeMeasurement).foldl
    (fun t m =>
      match recordContribution g year m with
      | none => t
      | some kv => addToKey t kv.1 kv.2)
    Totals.init

/-- `calculate_year_totals` (lines 47-101): the bucket map when any bucket
is positive, otherwise `None`. -/
def calculate_year_totals (g : Graph) (country_uri : String) (year : Int) : Option Totals :=
  if (rawTotals g country_uri year).anyPositive then some (rawTotals g country_uri year)
  else none

/-! ### The aggregate writer (`add_trade_aggregate`) -/

/-- The deterministic aggregate identifier
`URIRef(f"\x7bcountry_uri\x7d_trade_aggregate_\x7byear\x7d")` (line 139). -/
def aggregateUri (country_uri : String) (year : Int) : Node :=
  .uri (country_uri ++ "_trade_aggregate_" ++ toString year)

/-- The batch of statements built by `add_trade_aggregate` (lines 146-167). -/
def aggregateStatements (country_uri : String) (year : Int) (totals : Totals) : List Triple :=
  let aggregate_uri := aggregateUri country_uri year
  let total_export := totals.goods_export + totals.services_export
  let total_import := totals.goods_import + totals.services_import
  [ ⟨aggregate_uri, rdfType, cTradeAggregate⟩,
    ⟨aggregate_uri, pYear, .litInt year⟩,
    ⟨.uri country_uri, pHasTradeAggregate, aggregate_uri⟩,
    ⟨aggregate_uri, pTotalExportValue, .litNum total_export⟩,
    ⟨aggregate_uri, pGoodsExportValue, .litNum totals.goods_export⟩,
    ⟨aggregate_uri, pServicesExportValue, .litNum totals.services_export⟩,
    ⟨aggregate_uri, pTotalImportValue, .litNum total_import⟩,
    ⟨aggregate_uri, pGoodsImportValue, .litNum totals.goods_import⟩,
    ⟨aggregate_uri, pServicesImportValue, .litNum totals.services_import⟩,
    ⟨aggregate_uri, pTotalTradeBalance, .litNum (total_export - total_import)⟩,
    ⟨aggregate_uri, pGoodsTradeBalance,
      .litNum (totals.goods_export - totals.goods_import)⟩,
    ⟨aggregate_uri, pServicesTradeBalance,
      .litNum (totals.services_export - totals.services_import)⟩ ]

/-- `add_trade_aggregate` (lines 137-170): add the batch to the store. -/
def add_trade_aggregate (g : Graph) (country_uri : String) (year : Int)
    (totals : Totals) : Graph :=
  addStatements g (aggregateStatements country_uri year totals)

/-! ### Per-entity task and orchestrator (`process_country`, `main`) -/

/-- The statements one year of `process_country`'s loop adds (lines
182-184): the aggregate batch when `calculate_year_totals` returned data,
nothing otherwise. -/
def yearWrites (g : Graph) (country_uri : String) (year : Int) : List Triple :=
  match calculate_year_totals g country_uri year with
  | none => []
  | some totals => aggregateStatements country_uri year totals

/-- `process_country` (lines 174-192): fold the per-year step over the
shared years list, reading the evolving store. -/
def process_country (g : Graph) (country_uri : String) (years : List Int) : Graph :=
  years.foldl (fun acc y => addStatements acc (yearWrites acc country_uri y)) g

/-- The per-entity tasks executed in a given order, each task atomically
running `process_country` against the current store (one realizable
schedule of the worker pool of `main`, lines 240-248). -/
def runCountries (g : Graph) (countries : List (String × String))
    (years : List Int) : Graph :=
  countries.foldl (fun acc p => process_country acc p.1 years) g

/-- Same as `runCountries` but with fault injection: a task whose entity is
marked by `fault` raises before writing anything (the executor still runs
every other task to completion). -/
def runCountriesFaulty (g : Graph) (countries : List (String × String))
    (years : List Int) (fault : String → Bool) : Graph :=
  countries.foldl
    (fun acc p => if fault p.2 then acc else process_country acc p.1 years) g

/-- Outcome of one run of `main` (lines 220-259): the final in-memory
store, whether the run re-raised an exception, and the content serialized
to the output file (`none` when `g.serialize` was never reached). -/
structure MainResult where
  store : Graph
  raised : Bool
  saved : Option Graph
deriving DecidableEq

/-- `main` (lines 220-259) with fault injection.  `future.result()` inside
the `with ThreadPoolExecutor` block re-raises the first captured task
error; leaving the block still waits for every submitted task to reach a
terminal state (`shutdown(wait=True)` runs pending tasks), and the
exception then skips `g.serialize` and is re-raised by the outer handler.
On a fault-free run every aggregate is written and the store is saved. -/
def mainRun (g : Graph) (fault : String → Bool) : MainResult :=
  if (get_countries g).any (fun p => fault p.2) then
    ⟨runCountriesFaulty g (get_countries g) (get_relevant_years g) fault, true, none⟩
  else
    ⟨runCountriesFaulty g (get_countries g) (get_relevant_years g) fault, false,
      some (runCountriesFaulty g (get_countries g) (get_relevant_years g) fault)⟩

/-! ### Basic store lemmas -/

theorem mem_addTriple {g : Graph} {t u : Triple} :
    u ∈ addTriple g t ↔ u ∈ g ∨ u = t := by
  unfold addTriple
  by_cases h : t ∈ g
  · rw [if_pos h]
    constructor
    · exact Or.inl
    · rintro (hu | rfl)
      · exact hu
      · exact h
  · rw [if_neg h]
    simp

theorem mem_addStatements {ts : List Triple} {g : Graph} {u : Triple} :
    u ∈ addStatements g ts ↔ u ∈ g ∨ u ∈ ts := by
  induction ts generalizing g with
  | nil => simp [addStatements]
  | cons t ts ih =>
    show u ∈ addStatements (addTriple g t) ts ↔ _
    rw [ih, mem_addTriple]
    simp [or_assoc]

theorem mem_objectsOf {g : Graph} {s p o : Node} :
    o ∈ objectsOf g s p ↔ (⟨s, p, o⟩ : Triple) ∈ g := by
  unfold objectsOf
  rw [List.mem_filterMap]
  constructor
  · rintro ⟨t, ht, hf⟩
    by_cases hc : t.s = s ∧ t.p = p
    · rw [if_pos hc] at hf
      obtain ⟨h1, h2⟩ := hc
      obtain ⟨ns, np, no⟩ := t
      simp only [Option.some.injEq] at hf
      subst h1; subst h2; subst hf
      exact ht
    · rw [if_neg hc] at hf
      exact absurd hf (by simp)
  · intro h
    exact ⟨⟨s, p, o⟩, h, by simp⟩

theorem objectsOf_append (g₁ g₂ : Graph) (s p : Node) :
    objectsOf (g₁ ++ g₂) s p = objectsOf g₁ s p ++ objectsOf g₂ s p :=
  List.filterMap_append g₁ g₂ _

theorem objectsOf_eq_nil {g : Graph} {s p : Node}
    (h : ∀ t ∈ g, ¬(t.s = s ∧ t.p = p)) : objectsOf g s p = [] := by
  unfold objectsOf
  rw [List.filterMap_eq_nil_iff]
  intro t ht
  rw [if_neg (h t ht)]

theorem subset_addStatements {g : Graph} {ts : List Triple} {u : Triple} (h : u ∈ g) :
    u ∈ addStatements g ts :=
  mem_addStatements.mpr (Or.inl h)

theorem subset_process_country {c : String} {years : List Int} {g : Graph} {u : Triple}
    (h : u ∈ g) : u ∈ process_country g c years := by
  induction years generalizing g with
  | nil => exact h
  | cons y ys ih =>
    show u ∈ process_country (addStatements g (yearWrites g c y)) c ys
    exact ih (subset_addStatements h)

theorem subset_runCountries {cs : List (String × String)} {years : List Int}
    {g : Graph} {u : Triple} (h : u ∈ g) : u ∈ runCountries g cs years := by
  induction cs generalizing g with
  | nil => exact h
  | cons p ps ih =>
    show u ∈ runCountries (process_country g p.1 years) ps years
    exact ih (subset_process_country h)

theorem subset_runCountriesFaulty {cs : List (String × String)} {years : List Int}
    {fault : String → Bool} {g : Graph} {u : Triple} (h : u ∈ g) :
    u ∈ runCountriesFaulty g cs years fault := by
  induction cs generalizing g with
  | nil => exact h
  | cons p ps ih =>
    show u ∈ runCountriesFaulty
      (if fault p.2 then g else process_country g p.1 years) ps years fault
    split
    · exact ih h
    · exact ih (subset_process_country h)

theorem runCountriesFaulty_append (g : Graph) (l₁ l₂ : List (String × String))
    (years : List Int) (fault : String → Bool) :
    runCountriesFaulty g (l₁ ++ l₂) years fault =
      runCountriesFaulty (runCountriesFaulty g l₁ years fault) l₂ years fault :=
  List.foldl_append _ _ l₁ l₂

/-! ### Bucket accumulation as a per-key sum -/

/-- The value a single measurement adds to bucket `k` (zero when the record
is skipped or keyed elsewhere). -/
def contribValue (g : Graph) (year : Int) (k : String) (m : Node) : ℚ :=
  match recordContribution g year m with
  | none => 0
  | some kv => if kv.1 = k then kv.2 else 0

/-- Sum of the contributions of a list of measurement nodes to bucket `k`. -/
def keySum (g : Graph) (year : Int) (ms : List Node) (k : String) : ℚ :=
  (ms.map (contribValue g year k)).sum

theorem addToKey_fields (t : Totals) (k : String) (v : ℚ) :
    (addToKey t k v).goods_export
        = t.goods_export + (if k = "goods_export" then v else 0)
      ∧ (addToKey t k v).goods_import
        = t.goods_import + (if k = "goods_import" then v else 0)
      ∧ (addToKey t k v).services_export
        = t.services_export + (if k = "services_export" then v else 0)
      ∧ (addToKey t k v).services_import
        = t.services_import + (if k = "services_import" then v else 0) := by
  unfold addToKey
  split_ifs <;> simp_all

/-- One step of the measurement loop (line 96). -/
def totalsStep (g : Graph) (year : Int) (t : Totals) (m : Node) : Totals :=
  match recordContribution g year m with
  | none => t
  | some kv => addToKey t kv.1 kv.2

theorem foldl_totalsStep_fields (g : Graph) (year : Int) (ms : List Node) :
    ∀ t0 : Totals,
      (ms.foldl (totalsStep g year) t0).goods_export
          = t0.goods_export + keySum g year ms "goods_export"
        ∧ (ms.foldl (totalsStep g year) t0).goods_import
          = t0.goods_import + keySum g year ms "goods_import"
        ∧ (ms.foldl (totalsStep g year) t0).services_export
          = t0.services_export + keySum g year ms "services_export"
        ∧ (ms.foldl (totalsStep g year) t0).services_import
          = t0.services_import + keySum g year ms "services_import" := by
  induction ms with
  | nil => intro t0; simp [keySum]
  | cons m ms ih =>
    intro t0
    have hsum : ∀ k, keySum g year (m :: ms) k
        = contribValue g year k m + keySum g year ms k := by
      intro k; simp [keySum]
    have hfields : (totalsStep g year t0 m).goods_export
          = t0.goods_export + contribValue g year "goods_export" m
        ∧ (totalsStep g year t0 m).goods_import
          = t0.goods_import + contribValue g year "goods_import" m
        ∧ (totalsStep g year t0 m).services_export
          = t0.services_export + contribValue g year "services_export" m
        ∧ (totalsStep g year t0 m).services_import
          = t0.services_import + contribValue g year "services_import" m := by
      unfold totalsStep contribValue
      cases hrec : recordContribution g year m
      · simp
      · rename_i kv
        exact ⟨(addToKey_fields t0 kv.1 kv.2).1, (addToKey_fields t0 kv.1 kv.2).2.1,
          (addToKey_fields t0 kv.1 kv.2).2.2.1, (addToKey_fields t0 kv.1 kv.2).2.2.2⟩
    obtain ⟨ih1, ih2, ih3, ih4⟩ := ih (totalsStep g year t0 m)
    rw [List.foldl_cons]
    refine ⟨?_, ?_, ?_, ?_⟩
    · rw [show List.foldl (fun t m => totalsStep g year t m) (totalsStep g year t0 m) ms
          = List.foldl (totalsStep g year) (totalsStep g year t0 m) ms from rfl,
        ih1, hfields.1, hsum]
      ring
    · rw [show List.foldl (fun t m => totalsStep g year t m) (totalsStep g year t0 m) ms
          = List.foldl (totalsStep g year) (totalsStep g year t0 m) ms from rfl,
        ih2, hfields.2.1, hsum]
      ring
    · rw [show List.foldl (fun t m => totalsStep g year t m) (totalsStep g year t0 m) ms
          = List.foldl (totalsStep g year) (totalsStep g year t0 m) ms from rfl,
        ih3, hfields.2.2.1, hsum]
      ring
    · rw [show List.foldl (fun t m => totalsStep g year t m) (totalsStep g year t0 m) ms
          = List.foldl (totalsStep g year) (totalsStep g year t0 m) ms from rfl,
        ih4, hfields.2.2.2, hsum]
      ring

/-- The four buckets of `rawTotals` are per-key sums of the record
contributions, in measurement order. -/
theorem rawTotals_eq_keySum (g : Graph) (c : String) (year : Int) :
    (rawTotals g c year).goods_export
        = keySum g year (objectsOf g (.uri c) pHasTradeMeasurement) "goods_export"
      ∧ (rawTotals g c year).goods_import
        = keySum g year (objectsOf g (.uri c) pHasTradeMeasurement) "goods_import"
      ∧ (rawTotals g c year).services_export
        = keySum g year (objectsOf g (.uri c) pHasTradeMeasurement) "services_export"
      ∧ (rawTotals g c year).services_import
        = keySum g year (objectsOf g (.uri c) pHasTradeMeasurement) "services_import" := by
  have h := foldl_totalsStep_fields g year
    (objectsOf g (.uri c) pHasTradeMeasurement) Totals.init
  have hraw : rawTotals g c year
      = (objectsOf g (.uri c) pHasTradeMeasurement).foldl (totalsStep g year)
          Totals.init := rfl
  rw [hraw]
  obtain ⟨h1, h2, h3, h4⟩ := h
  refine ⟨?_, ?_, ?_, ?_⟩ <;> simp_all [Totals.init]

/-- Exact success conditions of the measurement loop (lines 60-96): a
record contributes iff its first type triple is a recognized category, its
first year literal is the target year, it has a flow type and a value, the
first value parses, and the parsed value is strictly positive.  The key is
built from the first type and whether the first flow type reads `Export`. -/
theorem recordContribution_eq_some_iff {g : Graph} {year : Int} {m : Node}
    {k : String} {v : ℚ} :
    recordContribution g year m = some (k, v) ↔
      ∃ mty ft v0,
        (objectsOf g m rdfType).head? = some mty
        ∧ (mty = cGoodsTrade ∨ mty = cServicesTrade)
        ∧ (objectsOf g m pYear).head? = some (Node.litInt year)
        ∧ (objectsOf g m pFlowType).head? = some ft
        ∧ (objectsOf g m pTradeValue).head? = some v0
        ∧ parseValue v0 = some v
        ∧ 0 < v
        ∧ k = (if mty = cGoodsTrade then "goods" else "services") ++ "_" ++
            (if nodeToStr ft = "Export" then "export" else "import") := by
  constructor
  · intro h
    unfold recordContribution at h
    split at h
    · exact absurd h (by simp)
    · rename_i mty hty
      split at h
      · exact absurd h (by simp)
      · rename_i hrecog
        rw [not_and_or, not_not, not_not] at hrecog
        split at h
        · exact absurd h (by simp)
        · rename_i y0 hy0
          split at h
          · exact absurd h (by simp)
          · rename_i hyeq
            rw [not_not] at hyeq
            subst hyeq
            split at h
            · rename_i ft v0 hft hv0
              split at h
              · exact absurd h (by simp)
              · rename_i v1 hv1
                split at h
                · exact absurd h (by simp)
                · rename_i hpos
                  rw [not_le] at hpos
                  simp only [Option.some.injEq, Prod.mk.injEq] at h
                  exact ⟨mty, ft, v0, hty, hrecog, hy0, hft, hv0,
                    h.2 ▸ hv1, h.2 ▸ hpos, h.1.symm⟩
            · rename_i hnone
              exact absurd h (by simp)
  · rintro ⟨mty, ft, v0, h1, h2, h3, h4, h5, h6, h7, rfl⟩
    rcases h2 with h2 | h2 <;> subst h2 <;>
      simp +decide [recordContribution, h1, h3, h4, h5, h6, not_le.mpr h7, cGoodsTrade,
        cServicesTrade, baseNS]

/-- A record whose first parsed value is non-positive, or which fails any
earlier guard, contributes nothing. -/
theorem recordContribution_eq_none_of_nonpos {g : Graph} {year : Int} {m : Node}
    (h : ∀ v0 v, (objectsOf g m pTradeValue).head? = some v0 →
      parseValue v0 = some v → v ≤ 0) :
    recordContribution g year m = none := by
  cases hrec : recordContribution g year m with
  | none => rfl
  | some kv =>
    obtain ⟨mty, ft, v0, _, _, _, _, h5, h6, h7, _⟩ :=
      recordContribution_eq_some_iff.mp (hrec.trans (congrArg some (Prod.mk.eta).symm))
    exact absurd (h v0 kv.2 h5 h6) (not_le.mpr h7)

/-! ### Written values of an aggregate batch -/

/-- The numeric objects a statement batch writes under a given predicate. -/
def writtenNums (stmts : List Triple) (p : Node) : List ℚ :=
  stmts.filterMap (fun t =>
    if t.p = p then
      match t.o with
      | .litNum q => some q
      | _ => none
    else none)

/-- The nine value predicates of an aggregate record. -/
def valuePreds : List Node :=
  [pTotalExportValue, pGoodsExportValue, pServicesExportValue,
   pTotalImportValue, pGoodsImportValue, pServicesImportValue,
   pTotalTradeBalance, pGoodsTradeBalance, pServicesTradeBalance]

/-- C5: For every aggregate record created by the writer,
`totalExport = goods_export + services_export`,
`totalImport = goods_import + services_import`,
`totalBalance = totalExport − totalImport`,
`goodsBalance = goods_export − goods_import`, and
`servicesBalance = services_export − services_import`. -/
theorem claim_C5 (c : String) (y : Int) (t : Totals) :
    ∃ te ge se ti gi si tb gb sb : ℚ,
      writtenNums (aggregateStatements c y t) pTotalExportValue = [te]
      ∧ writtenNums (aggregateStatements c y t) pGoodsExportValue = [ge]
      ∧ writtenNums (aggregateStatements c y t) pServicesExportValue = [se]
      ∧ writtenNums (aggregateStatements c y t) pTotalImportValue = [ti]
      ∧ writtenNums (aggregateStatements c y t) pGoodsImportValue = [gi]
      ∧ writtenNums (aggregateStatements c y t) pServicesImportValue = [si]
      ∧ writtenNums (aggregateStatements c y t) pTotalTradeBalance = [tb]
      ∧ writtenNums (aggregateStatements c y t) pGoodsTradeBalance = [gb]
      ∧ writtenNums (aggregateStatements c y t) pServicesTradeBalance = [sb]
      ∧ te = ge + se ∧ ti = gi + si
      ∧ tb = te - ti ∧ gb = ge - gi ∧ sb = se - si := by
  refine ⟨t.goods_export + t.services_export, t.goods_export, t.services_export,
    t.goods_import + t.services_import, t.goods_import, t.services_import,
    (t.goods_export + t.services_export) - (t.goods_import + t.services_import),
    t.goods_export - t.goods_import, t.services_export - t.services_import,
    ?_, ?_, ?_, ?_, ?_, ?_, ?_, ?_, ?_, rfl, rfl, rfl, rfl, rfl⟩ <;>
    simp +decide [writtenNums, aggregateStatements, rdfType, pYear,
      pHasTradeAggregate, pTotalExportValue, pGoodsExportValue,
      pServicesExportValue, pTotalImportValue, pGoodsImportValue,
      pServicesImportValue, pTotalTradeBalance, pGoodsTradeBalance,
      pServicesTradeBalance, baseNS]

/-- C8: the writer constructs the aggregate node with the deterministic
identifier `{entity_id}_trade_aggregate_{period}`, writes all nine value
fields as triples with that subject, and links the source entity to the
aggregate node via the has-aggregate relation. -/
theorem claim_C8 (g : Graph) (c : String) (y : Int) (t : Totals) :
    aggregateUri c y = Node.uri (c ++ "_trade_aggregate_" ++ toString y)
    ∧ (⟨.uri c, pHasTradeAggregate, aggregateUri c y⟩ : Triple)
        ∈ add_trade_aggregate g c y t
    ∧ (∀ p ∈ valuePreds, ∃ q : ℚ,
        (⟨aggregateUri c y, p, .litNum q⟩ : Triple) ∈ add_trade_aggregate g c y t) := by
  refine ⟨rfl, ?_, ?_⟩
  · exact mem_addStatements.mpr (Or.inr (by simp [aggregateStatements]))
  · intro p hp
    simp only [valuePreds, List.mem_cons, List.not_mem_nil, or_false] at hp
    rcases hp with rfl | rfl | rfl | rfl | rfl | rfl | rfl | rfl | rfl
    · exact ⟨t.goods_export + t.services_export,
        mem_addStatements.mpr (Or.inr (by simp [aggregateStatements]))⟩
    · exact ⟨t.goods_export,
        mem_addStatements.mpr (Or.inr (by simp [aggregateStatements]))⟩
    · exact ⟨t.services_export,
        mem_addStatements.mpr (Or.inr (by simp [aggregateStatements]))⟩
    · exact ⟨t.goods_import + t.services_import,
        mem_addStatements.mpr (Or.inr (by simp [aggregateStatements]))⟩
    · exact ⟨t.goods_import,
        mem_addStatements.mpr (Or.inr (by simp [aggregateStatements]))⟩
    · exact ⟨t.services_import,
        mem_addStatements.mpr (Or.inr (by simp [aggregateStatements]))⟩
    · exact ⟨(t.goods_export + t.services_export) - (t.goods_import + t.services_import),
        mem_addStatements.mpr (Or.inr (by simp [aggregateStatements]))⟩
    · exact ⟨t.goods_export - t.goods_import,
        mem_addStatements.mpr (Or.inr (by simp [aggregateStatements]))⟩
    · exact ⟨t.services_export - t.services_import,
        mem_addStatements.mpr (Or.inr (by simp [aggregateStatements]))⟩

/-- Witness for C8 at a concrete writer call. -/
theorem claim_C8_witness :
    (⟨.uri "X", pHasTradeAggregate, aggregateUri "X" 2020⟩ : Triple)
        ∈ add_trade_aggregate [] "X" 2020 ⟨1, 2, 3, 4⟩
    ∧ ∃ q : ℚ, (⟨aggregateUri "X" 2020, pTotalExportValue, .litNum q⟩ : Triple)
        ∈ add_trade_aggregate [] "X" 2020 ⟨1, 2, 3, 4⟩ :=
  ⟨(claim_C8 [] "X" 2020 ⟨1, 2, 3, 4⟩).2.1,
   (claim_C8 [] "X" 2020 ⟨1, 2, 3, 4⟩).2.2 pTotalExportValue (by simp [valuePreds])⟩

/-! ### Aggregator-level helper lemmas -/

theorem calculate_eq_some_iff {g : Graph} {c : String} {year : Int} {t : Totals} :
    calculate_year_totals g c year = some t ↔
      t = rawTotals g c year ∧ (rawTotals g c year).anyPositive := by
  unfold calculate_year_totals
  split
  · rename_i h
    simp only [Option.some.injEq]
    constructor
    · intro he; exact ⟨he.symm, h⟩
    · intro he; exact he.1.symm
  · rename_i h
    simp only [reduceCtorEq, false_iff, not_and]
    intro he; rw [← he] at h; intro hc; exact absurd (he ▸ hc) h

theorem recordContribution_pos {g : Graph} {year : Int} {m : Node} {k : String}
    {v : ℚ} (h : recordContribution g year m = some (k, v)) : 0 < v := by
  obtain ⟨_, _, _, _, _, _, _, _, _, h7, _⟩ := recordContribution_eq_some_iff.mp h
  exact h7

theorem contribValue_nonneg (g : Graph) (year : Int) (k : String) (m : Node) :
    0 ≤ contribValue g year k m := by
  unfold contribValue
  cases hrec : recordContribution g year m with
  | none => exact le_refl (0 : ℚ)
  | some kv =>
    have hv : 0 < kv.2 :=
      recordContribution_pos (show recordContribution g year m = some (kv.1, kv.2) by
        rw [hrec])
    show (0 : ℚ) ≤ if kv.1 = k then kv.2 else 0
    split
    · exact le_of_lt hv
    · exact le_refl (0 : ℚ)

theorem keySum_nonneg (g : Graph) (year : Int) (ms : List Node) (k : String) :
    0 ≤ keySum g year ms k := by
  unfold keySum
  apply List.sum_nonneg
  intro x hx
  obtain ⟨m, _, rfl⟩ := List.mem_map.mp hx
  exact contribValue_nonneg g year k m

/-- C7: every bucket of a returned bucket map is the sum of the (strictly
positive) per-record contributions only, and therefore every raw bucket
field of a created aggregate is nonnegative. -/
theorem claim_C7 (g : Graph) (c : String) (year : Int) (t : Totals)
    (h : calculate_year_totals g c year = some t) :
    (t.goods_export
        = keySum g year (objectsOf g (.uri c) pHasTradeMeasurement) "goods_export"
      ∧ t.goods_import
        = keySum g year (objectsOf g (.uri c) pHasTradeMeasurement) "goods_import"
      ∧ t.services_export
        = keySum g year (objectsOf g (.uri c) pHasTradeMeasurement) "services_export"
      ∧ t.services_import
        = keySum g year (objectsOf g (.uri c) pHasTradeMeasurement) "services_import")
    ∧ (∀ m k v, recordContribution g year m = some (k, v) → 0 < v)
    ∧ (0 ≤ t.goods_export ∧ 0 ≤ t.goods_import
        ∧ 0 ≤ t.services_export ∧ 0 ≤ t.services_import) := by
  obtain ⟨ht, -⟩ := calculate_eq_some_iff.mp h
  subst ht
  obtain ⟨h1, h2, h3, h4⟩ := rawTotals_eq_keySum g c year
  refine ⟨⟨h1, h2, h3, h4⟩, fun m k v hrec => recordContribution_pos hrec, ?_⟩
  rw [h1, h2, h3, h4]
  exact ⟨keySum_nonneg _ _ _ _, keySum_nonneg _ _ _ _,
    keySum_nonneg _ _ _ _, keySum_nonneg _ _ _ _⟩

/-! ### Concrete example graphs -/

/-- Country entity A and its single goods-export measurement. -/
def exCountryA : String := "http://example.org/country-data#A"

def exMeasA : Node := .uri "http://example.org/country-data#mA"

/-- A well-formed single-country graph: one goods export of 100 in 2020. -/
def exGoods : Graph :=
  [ ⟨.uri exCountryA, rdfType, cCountry⟩,
    ⟨.uri exCountryA, pIsoCode, .litStr "AA"⟩,
    ⟨.uri exCountryA, pHasTradeMeasurement, exMeasA⟩,
    ⟨exMeasA, rdfType, cGoodsTrade⟩,
    ⟨exMeasA, pYear, .litInt 2020⟩,
    ⟨exMeasA, pFlowType, .litStr "Export"⟩,
    ⟨exMeasA, pTradeValue, .litNum 100⟩ ]

/-- Like `exGoods` but the only measurement value is negative. -/
def exNonpos : Graph :=
  [ ⟨.uri exCountryA, rdfType, cCountry⟩,
    ⟨.uri exCountryA, pIsoCode, .litStr "AA"⟩,
    ⟨.uri exCountryA, pHasTradeMeasurement, exMeasA⟩,
    ⟨exMeasA, rdfType, cGoodsTrade⟩,
    ⟨exMeasA, pYear, .litInt 2020⟩,
    ⟨exMeasA, pFlowType, .litStr "Export"⟩,
    ⟨exMeasA, pTradeValue, .litNum (-5)⟩ ]

/-- Witness for C7 on `exGoods`. -/
theorem claim_C7_witness :
    0 ≤ (Totals.mk 100 0 0 0).goods_export ∧ 0 ≤ (Totals.mk 100 0 0 0).goods_import
      ∧ 0 ≤ (Totals.mk 100 0 0 0).services_export
      ∧ 0 ≤ (Totals.mk 100 0 0 0).services_import :=
  (claim_C7 exGoods exCountryA 2020 ⟨100, 0, 0, 0⟩
    (by simp +decide [calculate_year_totals, rawTotals, objectsOf, recordContribution,
      Totals.anyPositive, addToKey, Totals.init, exGoods, exMeasA, exCountryA,
      parseValue, nodeToStr, baseNS, rdfType, cCountry, pIsoCode,
      pHasTradeMeasurement, cGoodsTrade, cServicesTrade, pYear, pFlowType,
      pTradeValue])).2.2

/-- C6: when every linked measurement value (if present and parseable) is
non-positive, no aggregate is produced for the (entity, period) pair; and
an aggregate batch is produced only when some bucket is strictly positive. -/
theorem claim_C6 (g : Graph) (c : String) (year : Int) :
    ((∀ m ∈ objectsOf g (.uri c) pHasTradeMeasurement, ∀ v0 v,
        (objectsOf g m pTradeValue).head? = some v0 → parseValue v0 = some v → v ≤ 0) →
      calculate_year_totals g c year = none ∧ yearWrites g c year = [])
    ∧ (yearWrites g c year ≠ [] →
        ∃ t, calculate_year_totals g c year = some t
          ∧ (0 < t.goods_export ∨ 0 < t.goods_import
              ∨ 0 < t.services_export ∨ 0 < t.services_import)) := by
  constructor
  · intro h
    have hzero : ∀ k, keySum g year (objectsOf g (.uri c) pHasTradeMeasurement) k = 0 := by
      intro k
      unfold keySum
      apply List.sum_eq_zero
      intro x hx
      obtain ⟨m, hm, rfl⟩ := List.mem_map.mp hx
      unfold contribValue
      rw [recordContribution_eq_none_of_nonpos (fun v0 v h1 h2 => h m hm v0 v h1 h2)]
    obtain ⟨h1, h2, h3, h4⟩ := rawTotals_eq_keySum g c year
    have hnot : ¬ (rawTotals g c year).anyPositive := by
      unfold Totals.anyPositive
      rw [h1, h2, h3, h4, hzero, hzero, hzero, hzero]
      simp
    have hcalc : calculate_year_totals g c year = none := by
      unfold calculate_year_totals
      rw [if_neg hnot]
    refine ⟨hcalc, ?_⟩
    unfold yearWrites
    rw [hcalc]
  · intro hne
    cases hcalc : calculate_year_totals g c year with
    | none =>
      exact absurd (by unfold yearWrites; rw [hcalc]) hne
    | some t =>
      obtain ⟨ht, hpos⟩ := calculate_eq_some_iff.mp hcalc
      exact ⟨t, rfl, ht ▸ hpos⟩

/-- Witness for C6 on `exNonpos`: the only value is −5, no aggregate. -/
theorem claim_C6_witness :
    calculate_year_totals exNonpos exCountryA 2020 = none
      ∧ yearWrites exNonpos exCountryA 2020 = [] :=
  (claim_C6 exNonpos exCountryA 2020).1 (by
    intro m hm v0 v h1 h2
    simp +decide [objectsOf, exNonpos, exMeasA, exCountryA, baseNS, rdfType,
      cCountry, pIsoCode, pHasTradeMeasurement, cGoodsTrade, pYear, pFlowType,
      pTradeValue] at hm
    subst hm
    simp +decide [objectsOf, exNonpos, exMeasA, exCountryA, baseNS, rdfType,
      cCountry, pIsoCode, pHasTradeMeasurement, cGoodsTrade, pYear, pFlowType,
      pTradeValue] at h1
    subst h1
    simp [parseValue] at h2
    subst h2
    norm_num)

/-! ### C3: unrecognized flow types -/

def exMeasF : Node := .uri "http://example.org/country-data#mF"

/-- A graph whose only measurement carries the unrecognized flow type
`Balance` (neither the export nor the import direction) and value 5. -/
def exFlow : Graph :=
  [ ⟨.uri exCountryA, rdfType, cCountry⟩,
    ⟨.uri exCountryA, pIsoCode, .litStr "AA"⟩,
    ⟨.uri exCountryA, pHasTradeMeasurement, exMeasF⟩,
    ⟨exMeasF, rdfType, cGoodsTrade⟩,
    ⟨exMeasF, pYear, .litInt 2020⟩,
    ⟨exMeasF, pFlowType, .litStr "Balance"⟩,
    ⟨exMeasF, pTradeValue, .litNum 5⟩ ]

/-- C3 counterexample: the record with flow type `Balance` is NOT skipped —
its value 5 lands in the goods-import bucket, so the claim that an
unrecognized direction contributes to no bucket is false on the code. -/
theorem claim_C3_counterexample :
    calculate_year_totals exFlow exCountryA 2020 = some ⟨0, 5, 0, 0⟩ := by
  simp +decide [calculate_year_totals, rawTotals, objectsOf, recordContribution,
    Totals.anyPositive, addToKey, Totals.init, exFlow, exMeasF, exCountryA,
    parseValue, nodeToStr, baseNS, rdfType, cCountry, pIsoCode,
    pHasTradeMeasurement, cGoodsTrade, cServicesTrade, pYear, pFlowType,
    pTradeValue]

/-- C3 amended: a record whose first flow type is anything other than
`Export` (unrecognized values included) is classified as an import: its
strictly positive value is accumulated under the import key of its
category, and no error is raised. -/
theorem claim_C3 (g : Graph) (year : Int) (m mty ft v0 : Node) (v : ℚ)
    (h1 : (objectsOf g m rdfType).head? = some mty)
    (h2 : mty = cGoodsTrade ∨ mty = cServicesTrade)
    (h3 : (objectsOf g m pYear).head? = some (Node.litInt year))
    (h4 : (objectsOf g m pFlowType).head? = some ft)
    (h5 : nodeToStr ft ≠ "Export")
    (h6 : (objectsOf g m pTradeValue).head? = some v0)
    (h7 : parseValue v0 = some v)
    (h8 : 0 < v) :
    recordContribution g year m
      = some ((if mty = cGoodsTrade then "goods" else "services") ++ "_" ++ "import", v) := by
  have := recordContribution_eq_some_iff.mpr
    ⟨mty, ft, v0, h1, h2, h3, h4, h6, h7, h8, rfl⟩
  rwa [if_neg h5] at this

/-- Witness for C3 on `exFlow`. -/
theorem claim_C3_witness :
    recordContribution exFlow 2020 exMeasF = some ("goods_import", 5) := by
  have h := claim_C3 exFlow 2020 exMeasF cGoodsTrade (.litStr "Balance") (.litNum 5) 5
    (by simp +decide [objectsOf, exFlow, exMeasF, exCountryA, baseNS, rdfType,
      cCountry, pIsoCode, pHasTradeMeasurement, cGoodsTrade, pYear, pFlowType,
      pTradeValue])
    (Or.inl rfl)
    (by simp +decide [objectsOf, exFlow, exMeasF, exCountryA, baseNS, rdfType,
      cCountry, pIsoCode, pHasTradeMeasurement, cGoodsTrade, pYear, pFlowType,
      pTradeValue])
    (by simp +decide [objectsOf, exFlow, exMeasF, exCountryA, baseNS, rdfType,
      cCountry, pIsoCode, pHasTradeMeasurement, cGoodsTrade, pYear, pFlowType,
      pTradeValue])
    (by simp [nodeToStr])
    (by simp +decide [objectsOf, exFlow, exMeasF, exCountryA, baseNS, rdfType,
      cCountry, pIsoCode, pHasTradeMeasurement, cGoodsTrade, pYear, pFlowType,
      pTradeValue])
    (by simp [parseValue])
    (by norm_num)
  simpa using h

/-! ### C4: which records are accumulated -/

def cOther : Node := .uri (baseNS ++ "Other")

def exMeasT : Node := .uri "http://example.org/country-data#mT"

/-- A graph whose only measurement has TWO type triples: an unrecognized
one first, `GoodsTrade` second; everything else is well formed. -/
def exTwoTypes : Graph :=
  [ ⟨.uri exCountryA, rdfType, cCountry⟩,
    ⟨.uri exCountryA, pIsoCode, .litStr "AA"⟩,
    ⟨.uri exCountryA, pHasTradeMeasurement, exMeasT⟩,
    ⟨exMeasT, rdfType, cOther⟩,
    ⟨exMeasT, rdfType, cGoodsTrade⟩,
    ⟨exMeasT, pYear, .litInt 2020⟩,
    ⟨exMeasT, pFlowType, .litStr "Export"⟩,
    ⟨exMeasT, pTradeValue, .litNum 100⟩ ]

/-- C4 counterexample: the record's set of type triples includes
`GoodsTrade` and it has period 2020, direction Export and positive value
100, yet nothing is accumulated — the code looks only at `types[0]`, which
is the unrecognized type, and skips the record entirely. -/
theorem claim_C4_counterexample :
    calculate_year_totals exTwoTypes exCountryA 2020 = none := by
  simp +decide [calculate_year_totals, rawTotals, objectsOf, recordContribution,
    Totals.anyPositive, addToKey, Totals.init, exTwoTypes, exMeasT, exCountryA,
    cOther, parseValue, nodeToStr, baseNS, rdfType, cCountry, pIsoCode,
    pHasTradeMeasurement, cGoodsTrade, cServicesTrade, pYear, pFlowType,
    pTradeValue]

/-- C4 amended: a record is accumulated iff its FIRST type triple is a
recognized category, its FIRST period literal equals the target, it has
flow-type and value triples, and its FIRST value parses strictly positive;
the bucket key combines the first type's category with the
Export-vs-anything-else direction.  The buckets are exactly the per-key
sums of these contributions, and a returned bucket map is the raw one. -/
theorem claim_C4 (g : Graph) (c : String) (year : Int) :
    ((rawTotals g c year).goods_export
        = keySum g year (objectsOf g (.uri c) pHasTradeMeasurement) "goods_export"
      ∧ (rawTotals g c year).goods_import
        = keySum g year (objectsOf g (.uri c) pHasTradeMeasurement) "goods_import"
      ∧ (rawTotals g c year).services_export
        = keySum g year (objectsOf g (.uri c) pHasTradeMeasurement) "services_export"
      ∧ (rawTotals g c year).services_import
        = keySum g year (objectsOf g (.uri c) pHasTradeMeasurement) "services_import")
    ∧ (∀ m k v, recordContribution g year m = some (k, v) ↔
        ∃ mty ft v0,
          (objectsOf g m rdfType).head? = some mty
          ∧ (mty = cGoodsTrade ∨ mty = cServicesTrade)
          ∧ (objectsOf g m pYear).head? = some (Node.litInt year)
          ∧ (objectsOf g m pFlowType).head? = some ft
          ∧ (objectsOf g m pTradeValue).head? = some v0
          ∧ parseValue v0 = some v
          ∧ 0 < v
          ∧ k = (if mty = cGoodsTrade then "goods" else "services") ++ "_" ++
              (if nodeToStr ft = "Export" then "export" else "import"))
    ∧ (∀ t, calculate_year_totals g c year = some t → t = rawTotals g c year) :=
  ⟨rawTotals_eq_keySum g c year,
   fun _ _ _ => recordContribution_eq_some_iff,
   fun _ h => (calculate_eq_some_iff.mp h).1⟩

/-- Witness for C4 on `exGoods`. -/
theorem claim_C4_witness :
    (Totals.mk 100 0 0 0) = rawTotals exGoods exCountryA 2020 :=
  (claim_C4 exGoods exCountryA 2020).2.2 ⟨100, 0, 0, 0⟩
    (by simp +decide [calculate_year_totals, rawTotals, objectsOf,
      recordContribution, Totals.anyPositive, addToKey, Totals.init, exGoods,
      exMeasA, exCountryA, parseValue, nodeToStr, baseNS, rdfType, cCountry,
      pIsoCode, pHasTradeMeasurement, cGoodsTrade, cServicesTrade, pYear,
      pFlowType, pTradeValue])

/-! ### C9: the core only ever adds triples -/

theorem addTriple_eq_append (g : Graph) (t : Triple) :
    ∃ e, addTriple g t = g ++ e := by
  unfold addTriple
  split
  · exact ⟨[], by simp⟩
  · exact ⟨[t], rfl⟩

theorem addStatements_eq_append (g : Graph) (ts : List Triple) :
    ∃ e, addStatements g ts = g ++ e := by
  induction ts generalizing g with
  | nil => exact ⟨[], by simp [addStatements]⟩
  | cons t ts ih =>
    obtain ⟨e1, he1⟩ := addTriple_eq_append g t
    obtain ⟨e2, he2⟩ := ih (addTriple g t)
    refine ⟨e1 ++ e2, ?_⟩
    show addStatements (addTriple g t) ts = _
    rw [he2, he1, List.append_assoc]

theorem process_country_eq_append (g : Graph) (c : String) (years : List Int) :
    ∃ e, process_country g c years = g ++ e := by
  induction years generalizing g with
  | nil => exact ⟨[], by simp [process_country]⟩
  | cons y ys ih =>
    obtain ⟨e1, he1⟩ := addStatements_eq_append g (yearWrites g c y)
    obtain ⟨e2, he2⟩ := ih (addStatements g (yearWrites g c y))
    refine ⟨e1 ++ e2, ?_⟩
    show process_country (addStatements g (yearWrites g c y)) c ys = _
    rw [he2, he1, List.append_assoc]

theorem runCountriesFaulty_eq_append (g : Graph) (cs : List (String × String))
    (years : List Int) (fault : String → Bool) :
    ∃ e, runCountriesFaulty g cs years fault = g ++ e := by
  induction cs generalizing g with
  | nil => exact ⟨[], by simp [runCountriesFaulty]⟩
  | cons p ps ih =>
    show ∃ e, runCountriesFaulty
      (if fault p.2 then g else process_country g p.1 years) ps years fault = g ++ e
    split
    · exact ih g
    · obtain ⟨e1, he1⟩ := process_country_eq_append g p.1 years
      obtain ⟨e2, he2⟩ := ih (process_country g p.1 years)
      refine ⟨e1 ++ e2, ?_⟩
      rw [he2, he1, List.append_assoc]

/-- C9: a run only appends: the final store is the input graph followed by
the added aggregate triples, so every input triple is still present
unchanged. -/
theorem claim_C9 (g : Graph) (fault : String → Bool) :
    (∃ extra, (mainRun g fault).store = g ++ extra)
    ∧ ∀ t ∈ g, t ∈ (mainRun g fault).store := by
  have hstore : (mainRun g fault).store
      = runCountriesFaulty g (get_countries g) (get_relevant_years g) fault := by
    unfold mainRun
    split <;> rfl
  obtain ⟨e, he⟩ :=
    runCountriesFaulty_eq_append g (get_countries g) (get_relevant_years g) fault
  rw [hstore, he]
  exact ⟨⟨e, rfl⟩, fun t ht => List.mem_append.mpr (Or.inl ht)⟩

/-- Witness for C9 on `exGoods`: an input measurement triple survives. -/
theorem claim_C9_witness :
    (⟨exMeasA, pTradeValue, .litNum 100⟩ : Triple)
      ∈ (mainRun exGoods (fun _ => false)).store :=
  (claim_C9 exGoods (fun _ => false)).2 _ (by simp [exGoods])

/-! ### C10: entity enumeration -/

instance : IsTotal (String × String) byCode :=
  ⟨fun a b => le_total a.2 b.2⟩

instance : IsTrans (String × String) byCode :=
  ⟨fun _ _ _ h1 h2 => le_trans h1 h2⟩

theorem nodup_objectsOf {g : Graph} (hg : g.Nodup) (s p : Node) :
    (objectsOf g s p).Nodup := by
  unfold objectsOf
  refine List.Nodup.filterMap ?_ hg
  intro a b o ha hb
  by_cases hca : a.s = s ∧ a.p = p
  · rw [if_pos hca] at ha
    by_cases hcb : b.s = s ∧ b.p = p
    · rw [if_pos hcb] at hb
      obtain ⟨as, ap, ao⟩ := a
      obtain ⟨bs, bp, bo⟩ := b
      simp only [Option.mem_def, Option.some.injEq] at ha hb
      simp only at hca hcb
      rw [hca.1, hca.2, ha, hcb.1, hcb.2, hb]
    · rw [if_neg hcb] at hb
      exact absurd hb (by simp)
  · rw [if_neg hca] at ha
    exact absurd ha (by simp)

theorem mem_countryPairs {g : Graph} {pr : String × String} :
    pr ∈ countryPairs g ↔
      ∃ s iso, (⟨s, rdfType, cCountry⟩ : Triple) ∈ g
        ∧ (⟨s, pIsoCode, iso⟩ : Triple) ∈ g
        ∧ pr = (nodeToStr s, nodeToStr iso) := by
  unfold countryPairs
  rw [List.mem_flatMap]
  constructor
  · rintro ⟨t, ht, hpr⟩
    rw [List.mem_filter] at ht
    obtain ⟨htg, htp⟩ := ht
    rw [List.mem_map] at hpr
    obtain ⟨iso, hiso, rfl⟩ := hpr
    have hdec : t.p = rdfType ∧ t.o = cCountry := by
      have := of_decide_eq_true htp
      exact this
    obtain ⟨ns, np, no⟩ := t
    simp only at hdec
    rw [hdec.1, hdec.2] at htg
    exact ⟨ns, iso, htg, mem_objectsOf.mp hiso, rfl⟩
  · rintro ⟨s, iso, hty, hiso, rfl⟩
    refine ⟨⟨s, rdfType, cCountry⟩, ?_, ?_⟩
    · rw [List.mem_filter]
      exact ⟨hty, by simp⟩
    · rw [List.mem_map]
      exact ⟨iso, mem_objectsOf.mpr hiso, rfl⟩

/-- C10: entity enumeration yields, up to the stable sort, exactly one
`(entity, code)` pair per code triple of each Country-typed entity (so an
entity without a code triple is omitted and never dispatched, and one with
several code triples is dispatched once per code); the result is sorted
ascending by code, and `main` runs one unit of work per returned pair. -/
theorem claim_C10 (g : Graph) (fault : String → Bool) (hg : g.Nodup) :
    (get_countries g).Perm (countryPairs g)
    ∧ (∀ pr, pr ∈ get_countries g ↔
        ∃ s iso, (⟨s, rdfType, cCountry⟩ : Triple) ∈ g
          ∧ (⟨s, pIsoCode, iso⟩ : Triple) ∈ g
          ∧ pr = (nodeToStr s, nodeToStr iso))
    ∧ List.Pairwise byCode (get_countries g)
    ∧ (∀ s, (objectsOf g s pIsoCode).Nodup)
    ∧ (mainRun g fault).store
        = runCountriesFaulty g (get_countries g) (get_relevant_years g) fault := by
  have hperm : (get_countries g).Perm (countryPairs g) :=
    List.perm_insertionSort byCode (countryPairs g)
  refine ⟨hperm, ?_, ?_, ?_, ?_⟩
  · intro pr
    rw [hperm.mem_iff]
    exact mem_countryPairs
  · exact List.sorted_insertionSort byCode (countryPairs g)
  · exact fun s => nodup_objectsOf hg s pIsoCode
  · unfold mainRun
    split <;> rfl

/-- Witness for C10 on `exGoods`. -/
theorem claim_C10_witness :
    (get_countries exGoods).Perm (countryPairs exGoods)
      ∧ List.Pairwise byCode (get_countries exGoods) :=
  ⟨(claim_C10 exGoods (fun _ => false) (by decide)).1,
   (claim_C10 exGoods (fun _ => false) (by decide)).2.2.1⟩

/-! ### C1: partial failure, terminal states, and persistence -/

/-- The store after the first `i` units of work have reached a terminal
state. -/
def storeAfter (g : Graph) (countries : List (String × String)) (years : List Int)
    (fault : String → Bool) (i : Nat) : Graph :=
  runCountriesFaulty g (countries.take i) years fault

theorem storeAfter_subset_final (g : Graph) (countries : List (String × String))
    (years : List Int) (fault : String → Bool) (i : Nat) :
    ∀ t ∈ storeAfter g countries years fault i,
      t ∈ runCountriesFaulty g countries years fault := by
  intro t ht
  rw [show countries = countries.take i ++ countries.drop i from
    (List.take_append_drop i countries).symm, runCountriesFaulty_append]
  exact subset_runCountriesFaulty ht

theorem storeAfter_succ (g : Graph) (countries : List (String × String))
    (years : List Int) (fault : String → Bool) (i : Nat) (h : i < countries.length)
    (hf : fault ((countries.get ⟨i, h⟩).2) = false) :
    storeAfter g countries years fault (i + 1)
      = process_country (storeAfter g countries years fault i)
          ((countries.get ⟨i, h⟩).1) years := by
  unfold storeAfter
  rw [List.take_succ, List.getElem?_eq_getElem h, runCountriesFaulty_append]
  show runCountriesFaulty _ [countries.get ⟨i, h⟩] years fault = _
  show (if fault (countries.get ⟨i, h⟩).2 then _
    else process_country _ (countries.get ⟨i, h⟩).1 years) = _
  rw [hf]
  simp

/-- C1 amended: when at least one unit of work raises, every unit still
reaches a terminal state and every successful unit's writes are present in
the final in-memory store (the store only grows across units, and the
store after step i+1 is exactly the successful unit's `process_country`
applied to the store after step i); the error is re-raised only after all
units finished — but the store is NOT serialized to the output file
(`saved = none`). -/
theorem claim_C1 (g : Graph) (fault : String → Bool)
    (hsome : (get_countries g).any (fun p => fault p.2) = true) :
    (mainRun g fault).raised = true
    ∧ (mainRun g fault).saved = none
    ∧ (∀ i, ∀ t ∈ storeAfter g (get_countries g) (get_relevant_years g) fault i,
        t ∈ (mainRun g fault).store)
    ∧ (∀ i (h : i < (get_countries g).length),
        fault (((get_countries g).get ⟨i, h⟩).2) = false →
        storeAfter g (get_countries g) (get_relevant_years g) fault (i + 1)
          = process_country
              (storeAfter g (get_countries g) (get_relevant_years g) fault i)
              (((get_countries g).get ⟨i, h⟩).1) (get_relevant_years g)) := by
  have hstore : (mainRun g fault).store
      = runCountriesFaulty g (get_countries g) (get_relevant_years g) fault := by
    unfold mainRun
    split <;> rfl
  refine ⟨?_, ?_, ?_, ?_⟩
  · unfold mainRun
    rw [if_pos hsome]
  · unfold mainRun
    rw [if_pos hsome]
  · intro i t ht
    rw [hstore]
    exact storeAfter_subset_final g (get_countries g) (get_relevant_years g) fault i t ht
  · intro i h hf
    exact storeAfter_succ g (get_countries g) (get_relevant_years g) fault i h hf

/-! A two-country graph and a fault on the first country. -/

def exCountryB : String := "http://example.org/country-data#B"

def exMeasB : Node := .uri "http://example.org/country-data#mB"

/-- Two well-formed countries: A exports 100, B exports 50 (goods, 2020). -/
def exTwo : Graph :=
  [ ⟨.uri exCountryA, rdfType, cCountry⟩,
    ⟨.uri exCountryA, pIsoCode, .litStr "AA"⟩,
    ⟨.uri exCountryA, pHasTradeMeasurement, exMeasA⟩,
    ⟨exMeasA, rdfType, cGoodsTrade⟩,
    ⟨exMeasA, pYear, .litInt 2020⟩,
    ⟨exMeasA, pFlowType, .litStr "Export"⟩,
    ⟨exMeasA, pTradeValue, .litNum 100⟩,
    ⟨.uri exCountryB, rdfType, cCountry⟩,
    ⟨.uri exCountryB, pIsoCode, .litStr "BB"⟩,
    ⟨.uri exCountryB, pHasTradeMeasurement, exMeasB⟩,
    ⟨exMeasB, rdfType, cGoodsTrade⟩,
    ⟨exMeasB, pYear, .litInt 2020⟩,
    ⟨exMeasB, pFlowType, .litStr "Export"⟩,
    ⟨exMeasB, pTradeValue, .litNum 50⟩ ]

/-- The task of the country with ISO code `AA` raises. -/
def exFaultA : String → Bool := fun s => s == "AA"

theorem exTwo_countries :
    get_countries exTwo = [(exCountryA, "AA"), (exCountryB, "BB")] := by
  simp +decide [get_countries, countryPairs, List.insertionSort, List.orderedInsert,
    byCode, objectsOf, exTwo, exMeasA, exMeasB, exCountryA, exCountryB, nodeToStr,
    baseNS, rdfType, cCountry, pIsoCode, pHasTradeMeasurement, cGoodsTrade,
    cServicesTrade, pYear, pFlowType, pTradeValue]

theorem exTwo_years : get_relevant_years exTwo = [2020] := by
  simp +decide [get_relevant_years, yearsOfType, List.insertionSort,
    List.orderedInsert, List.dedup, objectsOf, exTwo, exMeasA, exMeasB, exCountryA,
    exCountryB, yearToInt, baseNS, rdfType, cCountry, pIsoCode,
    pHasTradeMeasurement, cGoodsTrade, cServicesTrade, pYear, pFlowType, pTradeValue]

theorem exTwo_any : ((get_countries exTwo).any fun p => exFaultA p.2) = true := by
  rw [exTwo_countries]
  decide

/-- C1 counterexample: with entity A's task raising, entity B's aggregate
is computed and present in the final in-memory store, but nothing is
persisted to the output file — `g.serialize` is skipped by the re-raised
exception, refuting the claim that the successful entities' aggregates are
persisted to the output file. -/
theorem claim_C1_counterexample :
    (mainRun exTwo exFaultA).saved = none
    ∧ (⟨.uri exCountryB, pHasTradeAggregate, aggregateUri exCountryB 2020⟩ : Triple)
        ∈ (mainRun exTwo exFaultA).store := by
  constructor
  · unfold mainRun
    rw [if_pos exTwo_any]
  · unfold mainRun
    rw [if_pos exTwo_any]
    show _ ∈ runCountriesFaulty exTwo (get_countries exTwo) (get_relevant_years exTwo)
      exFaultA
    rw [exTwo_countries, exTwo_years]
    simp +decide [runCountriesFaulty, process_country, yearWrites,
      calculate_year_totals, rawTotals, objectsOf, recordContribution,
      Totals.anyPositive, addToKey, Totals.init, exTwo, exMeasA, exMeasB,
      exCountryA, exCountryB, exFaultA, parseValue, nodeToStr, aggregateUri,
      aggregateStatements, addStatements, addTriple, baseNS, rdfType, cCountry,
      pIsoCode, pHasTradeMeasurement, cGoodsTrade, cServicesTrade, pYear,
      pFlowType, pTradeValue, cTradeAggregate, pHasTradeAggregate,
      pTotalExportValue, pGoodsExportValue, pServicesExportValue,
      pTotalImportValue, pGoodsImportValue, pServicesImportValue,
      pTotalTradeBalance, pGoodsTradeBalance, pServicesTradeBalance]

/-- Witness for C1 on `exTwo` with A faulting. -/
theorem claim_C1_witness :
    (mainRun exTwo exFaultA).raised = true ∧ (mainRun exTwo exFaultA).saved = none :=
  ⟨(claim_C1 exTwo exFaultA exTwo_any).1, (claim_C1 exTwo exFaultA exTwo_any).2.1⟩

/-! ### C2: order independence of the final aggregate set -/

/-- Shape of every triple the writer can add during a run over the given
countries and years: either the has-aggregate link, or a type/year triple
whose subject is a generated aggregate identifier, or a value triple. -/
def WrittenShape (countries : List (String × String)) (years : List Int)
    (t : Triple) : Prop :=
  t.p = pHasTradeAggregate
  ∨ ((t.p = rdfType ∨ t.p = pYear)
      ∧ ∃ q ∈ countries, ∃ y ∈ years, t.s = aggregateUri q.1 y)
  ∨ t.p ∈ valuePreds

/-- `acc` is the input graph `g₀` extended only by writer-shaped triples. -/
def ExtendsBy (countries : List (String × String)) (years : List Int)
    (g₀ acc : Graph) : Prop :=
  ∃ extra, acc = g₀ ++ extra ∧ ∀ t ∈ extra, WrittenShape countries years t

theorem extendsBy_refl (countries : List (String × String)) (years : List Int)
    (g₀ : Graph) : ExtendsBy countries years g₀ g₀ :=
  ⟨[], by simp, by simp⟩

/-- No measurement node of any enumerated entity equals a generated
aggregate identifier of any enumerated entity and year. -/
def NoAggCollision (g : Graph) (countries : List (String × String))
    (years : List Int) : Prop :=
  ∀ p ∈ countries, ∀ m ∈ objectsOf g (.uri p.1) pHasTradeMeasurement,
    ∀ q ∈ countries, ∀ y ∈ years, m ≠ aggregateUri q.1 y

theorem shape_aggregateStatements {countries : List (String × String)}
    {years : List Int} {q : String × String} {y : Int} (hq : q ∈ countries)
    (hy : y ∈ years) (tot : Totals) :
    ∀ t ∈ aggregateStatements q.1 y tot, WrittenShape countries years t := by
  intro t ht
  simp only [aggregateStatements, List.mem_cons, List.not_mem_nil, or_false] at ht
  rcases ht with rfl | rfl | rfl | rfl | rfl | rfl | rfl | rfl | rfl | rfl | rfl | rfl
  · exact Or.inr (Or.inl ⟨Or.inl rfl, q, hq, y, hy, rfl⟩)
  · exact Or.inr (Or.inl ⟨Or.inr rfl, q, hq, y, hy, rfl⟩)
  · exact Or.inl rfl
  all_goals exact Or.inr (Or.inr (by simp [valuePreds]))

theorem objectsOf_extra_predNe {countries : List (String × String)}
    {years : List Int} {extra : List Triple}
    (hsh : ∀ t ∈ extra, WrittenShape countries years t) (s p : Node)
    (hp1 : p ≠ pHasTradeAggregate) (hp2 : p ≠ rdfType) (hp3 : p ≠ pYear)
    (hp4 : p ∉ valuePreds) :
    objectsOf extra s p = [] := by
  apply objectsOf_eq_nil
  rintro t ht ⟨hts, htp⟩
  rcases hsh t ht with h | ⟨hb, -⟩ | h
  · exact hp1 (htp ▸ h)
  · rcases hb with h | h
    · exact hp2 (htp ▸ h)
    · exact hp3 (htp ▸ h)
  · exact hp4 (htp ▸ h)

theorem objectsOf_extra_safe {countries : List (String × String)}
    {years : List Int} {extra : List Triple}
    (hsh : ∀ t ∈ extra, WrittenShape countries years t) (s : Node)
    (hs : ∀ q ∈ countries, ∀ y ∈ years, s ≠ aggregateUri q.1 y)
    (p : Node) (hp1 : p ≠ pHasTradeAggregate) (hp4 : p ∉ valuePreds) :
    objectsOf extra s p = [] := by
  apply objectsOf_eq_nil
  rintro t ht ⟨hts, htp⟩
  rcases hsh t ht with h | ⟨-, q, hq, y, hy, hsub⟩ | h
  · exact hp1 (htp ▸ h)
  · exact hs q hq y hy (hts ▸ hsub)
  · exact hp4 (htp ▸ h)

theorem measurements_frame {countries : List (String × String)} {years : List Int}
    {g₀ acc : Graph} (hext : ExtendsBy countries years g₀ acc) (s : Node) :
    objectsOf acc s pHasTradeMeasurement = objectsOf g₀ s pHasTradeMeasurement := by
  obtain ⟨extra, rfl, hsh⟩ := hext
  rw [objectsOf_append,
    objectsOf_extra_predNe hsh s pHasTradeMeasurement (by decide) (by decide)
      (by decide) (by decide),
    List.append_nil]

theorem recordContribution_frame {countries : List (String × String)}
    {years : List Int} {g₀ acc : Graph}
    (hext : ExtendsBy countries years g₀ acc) {m : Node}
    (hm : ∀ q ∈ countries, ∀ y ∈ years, m ≠ aggregateUri q.1 y) (year : Int) :
    recordContribution acc year m = recordContribution g₀ year m := by
  obtain ⟨extra, rfl, hsh⟩ := hext
  unfold recordContribution
  rw [objectsOf_append, objectsOf_append, objectsOf_append, objectsOf_append,
    objectsOf_extra_safe hsh m hm rdfType (by decide) (by decide),
    objectsOf_extra_safe hsh m hm pYear (by decide) (by decide),
    objectsOf_extra_predNe hsh m pFlowType (by decide) (by decide) (by decide)
      (by decide),
    objectsOf_extra_predNe hsh m pTradeValue (by decide) (by decide) (by decide)
      (by decide),
    List.append_nil, List.append_nil, List.append_nil, List.append_nil]

theorem calculate_frame {countries : List (String × String)} {years : List Int}
    {g₀ acc : Graph} (hext : ExtendsBy countries years g₀ acc) {c : String}
    (hc : ∀ m ∈ objectsOf g₀ (.uri c) pHasTradeMeasurement,
      ∀ q ∈ countries, ∀ y ∈ years, m ≠ aggregateUri q.1 y) (year : Int) :
    calculate_year_totals acc c year = calculate_year_totals g₀ c year := by
  have hraw : rawTotals acc c year = rawTotals g₀ c year := by
    unfold rawTotals
    rw [measurements_frame hext]
    apply List.foldl_ext
    intro t m hm
    rw [recordContribution_frame hext (hc m hm) year]
  unfold calculate_year_totals
  rw [hraw]

theorem yearWrites_frame {countries : List (String × String)} {years : List Int}
    {g₀ acc : Graph} (hext : ExtendsBy countries years g₀ acc) {c : String}
    (hc : ∀ m ∈ objectsOf g₀ (.uri c) pHasTradeMeasurement,
      ∀ q ∈ countries, ∀ y ∈ years, m ≠ aggregateUri q.1 y) (year : Int) :
    yearWrites acc c year = yearWrites g₀ c year := by
  unfold yearWrites
  rw [calculate_frame hext hc year]

theorem shape_yearWrites {countries : List (String × String)} {years : List Int}
    {g₀ : Graph} {q : String × String} (hq : q ∈ countries) {y : Int}
    (hy : y ∈ years) :
    ∀ t ∈ yearWrites g₀ q.1 y, WrittenShape countries years t := by
  unfold yearWrites
  cases calculate_year_totals g₀ q.1 y with
  | none => simp
  | some tot => exact shape_aggregateStatements hq hy tot

theorem extendsBy_addStatements {countries : List (String × String)}
    {years : List Int} {g₀ acc : Graph}
    (hext : ExtendsBy countries years g₀ acc) {ts : List Triple}
    (hts : ∀ t ∈ ts, WrittenShape countries years t) :
    ExtendsBy countries years g₀ (addStatements acc ts) := by
  induction ts generalizing acc with
  | nil => exact hext
  | cons t ts ih =>
    refine ih ?_ (fun u hu => hts u (List.mem_cons_of_mem t hu))
    obtain ⟨extra, rfl, hsh⟩ := hext
    unfold addTriple
    split
    · exact ⟨extra, rfl, hsh⟩
    · refine ⟨extra ++ [t], by rw [List.append_assoc], ?_⟩
      intro u hu
      rcases List.mem_append.mp hu with hu | hu
      · exact hsh u hu
      · rw [List.mem_singleton.mp hu]
        exact hts t (List.mem_cons_self t ts)

theorem process_country_chars {countries : List (String × String)}
    {years : List Int} {g₀ : Graph} {c : String}
    (hc : ∀ m ∈ objectsOf g₀ (.uri c) pHasTradeMeasurement,
      ∀ q ∈ countries, ∀ y ∈ years, m ≠ aggregateUri q.1 y)
    {q : String × String} (hq : q ∈ countries) (hqc : q.1 = c) :
    ∀ ys : List Int, (∀ y ∈ ys, y ∈ years) →
      ∀ acc : Graph, ExtendsBy countries years g₀ acc →
        ExtendsBy countries years g₀ (process_country acc c ys)
        ∧ ∀ t, t ∈ process_country acc c ys
            ↔ t ∈ acc ∨ ∃ y ∈ ys, t ∈ yearWrites g₀ c y := by
  intro ys
  induction ys with
  | nil =>
    intro _ acc hext
    exact ⟨hext, by simp [process_country]⟩
  | cons y ys ih =>
    intro hsub acc hext
    have hyw : yearWrites acc c y = yearWrites g₀ c y :=
      yearWrites_frame hext hc y
    have hshape : ∀ t ∈ yearWrites g₀ c y, WrittenShape countries years t := by
      rw [← hqc]
      exact shape_yearWrites hq (hsub y (List.mem_cons_self y ys))
    have hext2 : ExtendsBy countries years g₀ (addStatements acc (yearWrites acc c y)) := by
      rw [hyw]
      exact extendsBy_addStatements hext hshape
    have hstep : process_country acc c (y :: ys)
        = process_country (addStatements acc (yearWrites acc c y)) c ys := rfl
    obtain ⟨ihext, ihmem⟩ :=
      ih (fun z hz => hsub z (List.mem_cons_of_mem y hz))
        (addStatements acc (yearWrites acc c y)) hext2
    rw [hstep]
    refine ⟨ihext, ?_⟩
    intro t
    rw [ihmem t, mem_addStatements, hyw]
    simp only [List.exists_mem_cons_iff]
    tauto

theorem runCountries_chars {countries : List (String × String)} {years : List Int}
    {g₀ : Graph} (hno : NoAggCollision g₀ countries years) :
    ∀ order : List (String × String), (∀ p ∈ order, p ∈ countries) →
      ∀ acc : Graph, ExtendsBy countries years g₀ acc →
        ExtendsBy countries years g₀ (runCountries acc order years)
        ∧ ∀ t, t ∈ runCountries acc order years
            ↔ t ∈ acc ∨ ∃ p ∈ order, ∃ y ∈ years, t ∈ yearWrites g₀ p.1 y := by
  intro order
  induction order with
  | nil =>
    intro _ acc hext
    exact ⟨hext, by simp [runCountries]⟩
  | cons p ps ih =>
    intro hord acc hext
    have hp : p ∈ countries := hord p (List.mem_cons_self p ps)
    have hmeas : ∀ m ∈ objectsOf g₀ (.uri p.1) pHasTradeMeasurement,
        ∀ q ∈ countries, ∀ y ∈ years, m ≠ aggregateUri q.1 y :=
      fun m hm => hno p hp m hm
    obtain ⟨pext, pmem⟩ :=
      process_country_chars hmeas hp rfl years (fun _ hy => hy) acc hext
    have hstep : runCountries acc (p :: ps) years
        = runCountries (process_country acc p.1 years) ps years := rfl
    obtain ⟨ihext, ihmem⟩ :=
      ih (fun q hq => hord q (List.mem_cons_of_mem p hq))
        (process_country acc p.1 years) pext
    rw [hstep]
    refine ⟨ihext, ?_⟩
    intro t
    rw [ihmem t, pmem t]
    simp only [List.exists_mem_cons_iff]
    exact or_assoc

/-- C2 amended: provided no measurement node of any enumerated entity
collides with a generated aggregate identifier, every per-entity-atomic
schedule of the tasks (any permutation of the enumeration, covering any
worker-pool size) produces the same final set of triples as the sequential
K = 1 run over the sorted enumeration.  (Without that proviso the claim is
false — see the counterexample.) -/
theorem claim_C2 (g : Graph) (years : List Int) (order : List (String × String))
    (hno : NoAggCollision g (get_countries g) years)
    (hperm : order.Perm (get_countries g)) :
    ∀ t : Triple, t ∈ runCountries g order years
      ↔ t ∈ runCountries g (get_countries g) years := by
  have h1 := (runCountries_chars hno order (fun p hp => hperm.subset hp) g
    (extendsBy_refl _ _ _)).2
  have h2 := (runCountries_chars hno (get_countries g) (fun _ hp => hp) g
    (extendsBy_refl _ _ _)).2
  intro t
  rw [h1 t, h2 t]
  constructor
  · rintro (h | ⟨p, hp, hrest⟩)
    · exact Or.inl h
    · exact Or.inr ⟨p, hperm.mem_iff.mp hp, hrest⟩
  · rintro (h | ⟨p, hp, hrest⟩)
    · exact Or.inl h
    · exact Or.inr ⟨p, hperm.mem_iff.mpr hp, hrest⟩

/-- A measurement node of B that IS the aggregate identifier A's task
generates for 2020. -/
def exMeasX : Node := aggregateUri exCountryA 2020

/-- Interference graph: A is well formed (goods export 100, 2020); B's only
measurement node is `exMeasX` — typed GoodsTrade with flow type and value
but with NO year triple in the input. -/
def exInterf : Graph :=
  [ ⟨.uri exCountryA, rdfType, cCountry⟩,
    ⟨.uri exCountryA, pIsoCode, .litStr "AA"⟩,
    ⟨.uri exCountryA, pHasTradeMeasurement, exMeasA⟩,
    ⟨exMeasA, rdfType, cGoodsTrade⟩,
    ⟨exMeasA, pYear, .litInt 2020⟩,
    ⟨exMeasA, pFlowType, .litStr "Export"⟩,
    ⟨exMeasA, pTradeValue, .litNum 100⟩,
    ⟨.uri exCountryB, rdfType, cCountry⟩,
    ⟨.uri exCountryB, pIsoCode, .litStr "BB"⟩,
    ⟨.uri exCountryB, pHasTradeMeasurement, exMeasX⟩,
    ⟨exMeasX, rdfType, cGoodsTrade⟩,
    ⟨exMeasX, pFlowType, .litStr "Export"⟩,
    ⟨exMeasX, pTradeValue, .litNum 50⟩ ]

/-- C2 counterexample: on `exInterf` the final triple set depends on the
execution order.  In the sequential sorted order (A before B), A's task
writes a year triple onto `exMeasX`, after which B's task sees a complete
2020 record and creates B's aggregate; scheduling B's task first (a
realizable interleaving for any pool size K ≥ 2), B sees no year triple and
creates nothing.  Hence the final store is NOT independent of the
interleaving for every input graph. -/
theorem claim_C2_counterexample :
    get_countries exInterf = [(exCountryA, "AA"), (exCountryB, "BB")]
    ∧ get_relevant_years exInterf = [2020]
    ∧ (⟨.uri exCountryB, pHasTradeAggregate, aggregateUri exCountryB 2020⟩ : Triple)
        ∈ runCountries exInterf [(exCountryA, "AA"), (exCountryB, "BB")] [2020]
    ∧ (⟨.uri exCountryB, pHasTradeAggregate, aggregateUri exCountryB 2020⟩ : Triple)
        ∉ runCountries exInterf [(exCountryB, "BB"), (exCountryA, "AA")] [2020] := by
  refine ⟨?_, ?_, ?_, ?_⟩
  · simp +decide [get_countries, countryPairs, List.insertionSort,
      List.orderedInsert, byCode, objectsOf, exInterf, exMeasA, exMeasX,
      exCountryA, exCountryB, nodeToStr, aggregateUri, baseNS, rdfType, cCountry,
      pIsoCode, pHasTradeMeasurement, cGoodsTrade, cServicesTrade, pYear,
      pFlowType, pTradeValue]
  · simp +decide [get_relevant_years, yearsOfType, List.insertionSort,
      List.orderedInsert, List.dedup, objectsOf, exInterf, exMeasA, exMeasX,
      exCountryA, exCountryB, yearToInt, aggregateUri, baseNS, rdfType, cCountry,
      pIsoCode, pHasTradeMeasurement, cGoodsTrade, cServicesTrade, pYear,
      pFlowType, pTradeValue]
  · simp +decide [runCountries, process_country, yearWrites,
      calculate_year_totals, rawTotals, objectsOf, recordContribution,
      Totals.anyPositive, addToKey, Totals.init, exInterf, exMeasA, exMeasX,
      exCountryA, exCountryB, parseValue, nodeToStr, aggregateUri,
      aggregateStatements, addStatements, addTriple, baseNS, rdfType, cCountry,
      pIsoCode, pHasTradeMeasurement, cGoodsTrade, cServicesTrade, pYear,
      pFlowType, pTradeValue, cTradeAggregate, pHasTradeAggregate,
      pTotalExportValue, pGoodsExportValue, pServicesExportValue,
      pTotalImportValue, pGoodsImportValue, pServicesImportValue,
      pTotalTradeBalance, pGoodsTradeBalance, pServicesTradeBalance]
  · simp +decide [runCountries, process_country, yearWrites,
      calculate_year_totals, rawTotals, objectsOf, recordContribution,
      Totals.anyPositive, addToKey, Totals.init, exInterf, exMeasA, exMeasX,
      exCountryA, exCountryB, parseValue, nodeToStr, aggregateUri,
      aggregateStatements, addStatements, addTriple, baseNS, rdfType, cCountry,
      pIsoCode, pHasTradeMeasurement, cGoodsTrade, cServicesTrade, pYear,
      pFlowType, pTradeValue, cTradeAggregate, pHasTradeAggregate,
      pTotalExportValue, pGoodsExportValue, pServicesExportValue,
      pTotalImportValue, pGoodsImportValue, pServicesImportValue,
      pTotalTradeBalance, pGoodsTradeBalance, pServicesTradeBalance]

/-- Witness for C2 on the collision-free graph `exTwo`: the reversed
schedule yields the same membership as the sequential sorted run. -/
theorem claim_C2_witness :
    (⟨.uri exCountryB, pHasTradeAggregate, aggregateUri exCountryB 2020⟩ : Triple)
        ∈ runCountries exTwo [(exCountryB, "BB"), (exCountryA, "AA")] [2020]
      ↔ (⟨.uri exCountryB, pHasTradeAggregate, aggregateUri exCountryB 2020⟩ : Triple)
        ∈ runCountries exTwo (get_countries exTwo) [2020] :=
  claim_C2 exTwo [2020] [(exCountryB, "BB"), (exCountryA, "AA")]
    (by unfold NoAggCollision; rw [exTwo_countries]; decide)
    (by rw [exTwo_countries]; exact List.Perm.swap _ _ _) _

end TDA
